import Mathlib

/-!
Shallow embedding of the sonarwhal CLI wizards:
the `--init` configuration wizard and the `--new-rule` scaffolding wizard
(`packages/sonarwhal/src/lib/cli/wizards/init.ts`), together with the
handlebars utilities (`escapeSafeString`, `compileTemplate`).

Modelling conventions:
* Filesystem paths are lists of segments (`Path`); `path.join(a, b, c)`
  becomes `a ++ [b, c]` and `path.dirname` drops the last segment.
* Prompting is modelled by passing the answers (or, for the repeated
  per-rule prompt, a scripted list of answer rounds) as arguments.
* Code that can throw is modelled with `Option` (`none` = threw); the
  side-effecting generation pipeline is modelled as a plan — an ordered
  list of actions (prompt / copy / render / mkdir / write) — executed
  against a `World` that decides which action, if any, fails.
* `normalizeStringByDelimiter` and `toPascalCase` live in `utils/misc`,
  which is not part of the sources; they are modelled from the spec
  (see their doc comments).
-/

namespace Sonarwhal

/-- A filesystem path, as a list of segments (`path.join` is `++`). -/
abbrev Path := List String

/-- Model of node's `path.dirname`: drop the last segment. -/
def pathDirname (p : Path) : Path := p.dropLast

/-- The backtick character (used by `escapeSafeString`). -/
def backtickChar : Char := Char.ofNat 96

/- ----------------------------------------------------------------------
`utils/misc` name derivation (not in the sources; modelled from the spec)
---------------------------------------------------------------------- -/

/-- Helper for `normalizeStringByDelimiter`: lower-case word characters,
replace each maximal run of non-alphanumeric characters by a single copy
of the delimiter (a leading run is dropped). The boolean flag records
whether the previous character was part of a delimiter run. -/
def normalizeGo (delim : String) : List Char → Bool → List Char
  | [], _ => []
  | c :: cs, prevDelim =>
    if c.isAlphanum then c.toLower :: normalizeGo delim cs false
    else if prevDelim then normalizeGo delim cs true
    else delim.data ++ normalizeGo delim cs true

/-- Modelled from the spec: `normalizeStringByDelimiter` from `utils/misc`
is not in the sources; per the spec (NameDeriver), it "lower-cases and
replaces a configurable delimiter set with a single separator, collapsing
repeats", producing the normalized slug used for files and package names. -/
def normalizeStringByDelimiter (value : String) (delimiter : String) : String :=
  String.mk (normalizeGo delimiter value.data true)

/-- Helper for `toPascalCase`: capitalize the character after each
separator run (and the first character), dropping the separators. -/
def pascalGo : List Char → Bool → List Char
  | [], _ => []
  | c :: cs, cap =>
    if c.isAlphanum then (if cap then c.toUpper else c) :: pascalGo cs false
    else pascalGo cs true

/-- Modelled from the spec: `toPascalCase` from `utils/misc` is not in the
sources; per the spec (NameDeriver), it pascal-cases a slug: each
delimiter-separated word is capitalized and the words are concatenated. -/
def toPascalCase (s : String) : String := String.mk (pascalGo s.data true)

/- ----------------------------------------------------------------------
`utils/handlebars` (from the sources)
---------------------------------------------------------------------- -/

/-- Character-level body of `escapeSafeString`:
`str.replace(/(`)/g, '\\$1')` prefixes every backtick with a backslash. -/
def escapeChars : List Char → List Char
  | [] => []
  | c :: cs =>
    if c = backtickChar then '\\' :: c :: escapeChars cs
    else c :: escapeChars cs

/-- `escapeSafeString` from `utils/handlebars`: backslash-escape every
backtick in the user's input before it reaches a template. The
`Handlebars.SafeString` wrapper is modelled as the underlying string. -/
def escapeSafeString (str : String) : String := String.mk (escapeChars str.data)

/- ----------------------------------------------------------------------
New-rule wizard: data model (`init.ts`, second section)
---------------------------------------------------------------------- -/

/-- The `events` map literal: use case → events to subscribe to. -/
def eventsMapGet (useCase : String) : Option (List String) :=
  if useCase = "dom" then some ["ElementFound"]
  else if useCase = "request" then some ["FetchStart", "FetchEnd", "FetchError"]
  else if useCase = "thirdPartyService" then some ["FetchStart", "FetchEnd"]
  else if useCase = "jsInjection" then some ["ScanEnd"]
  else none

/-- `getEventsByUseCase`: `events.get(useCase).join(', ')`. A use case
absent from the map makes the source throw (`.join` on `undefined`),
modelled as `none`. -/
def getEventsByUseCase (useCase : String) : Option String :=
  (eventsMapGet useCase).map (String.intercalate ", ")

/-- The `UseCase` flag record: usage categories a new rule applies to. -/
structure UseCase where
  dom : Bool
  request : Bool
  thirdPartyService : Bool
  jsInjection : Bool
deriving DecidableEq, Inhabited

/-- The fields of one answer round that the `NewRule` constructor reads. -/
structure RuleData where
  name : String
  description : String
  category : Option String
  useCase : String
  elementType : Option String
  scope : String
deriving DecidableEq, Inhabited

/-- One round of the per-rule prompt: rule answers plus the `again`
confirm that drives the repeat loop. -/
structure RuleRound extends RuleData where
  again : Bool
deriving DecidableEq, Inhabited

/-- Answers of the main prompt of the new-rule wizard, after the driver
has attached `official` (from `isOfficial()`) and `rules` (from
`askRules`), exactly as `newRule` does before `new RulePackage(results)`. -/
structure PackageData extends RuleData where
  multi : Bool
  official : Bool
  rules : List RuleRound
deriving DecidableEq, Inhabited

/-- `this.useCase[ruleData.useCase] = true`: set the flag named by the
key. A key outside the closed set adds an unrelated dynamic property in
the source, leaving the four flags untouched. -/
def setUseCaseFlag (u : UseCase) (key : String) : UseCase :=
  if key = "dom" then { u with dom := true }
  else if key = "request" then { u with request := true }
  else if key = "thirdPartyService" then { u with thirdPartyService := true }
  else if key = "jsInjection" then { u with jsInjection := true }
  else u

/-- The `NewRule` entity (class `NewRule implements INewRule`). -/
structure NewRule where
  name : String
  normalizedName : String
  className : String
  category : String
  description : String
  elementType : Option String
  events : String
  useCase : UseCase
  scope : String
  parentName : Option String
deriving DecidableEq, Inhabited

/-- The `NewRule` constructor. It throws (here: `none`) when the use case
is not a key of the `events` map, because `getEventsByUseCase` calls
`.join` on `undefined`; otherwise it normalizes the name, derives the
class name (prefixed with the pascal-cased parent name for multi-rule
packages), escapes the description and sets the selected use-case flag. -/
def NewRule.mk? (ruleData : RuleData) (parentName : Option String) : Option NewRule :=
  let normalizedName := normalizeStringByDelimiter ruleData.name "-"
  (getEventsByUseCase ruleData.useCase).map fun ev =>
    { name := ruleData.name
      normalizedName := normalizedName
      className :=
        (match parentName with
          | some p => toPascalCase p
          | none => "") ++ toPascalCase normalizedName ++ "Rule"
      category := ruleData.category.getD "other"
      description := escapeSafeString ruleData.description
      elementType := ruleData.elementType
      events := ev
      useCase := setUseCaseFlag ⟨false, false, false, false⟩ ruleData.useCase
      scope := ruleData.scope
      parentName := parentName }

/-- The `data.rules.forEach(... new NewRule(rule, this.normalizedName))`
loop of the `RulePackage` constructor: build each sub-rule in order; a
throwing constructor aborts the whole package (here: `none`). -/
def buildRules (parentNormalizedName : String) : List RuleRound → Option (List NewRule)
  | [] => some []
  | r :: rest =>
    (NewRule.mk? r.toRuleData (some parentNormalizedName)).bind fun nr =>
      (buildRules parentNormalizedName rest).map fun l => nr :: l

/-- The `RulePackage` entity. -/
structure RulePackage where
  name : String
  description : String
  isMulti : Bool
  normalizedName : String
  official : Bool
  packageMain : String
  packageName : String
  rules : List NewRule
  version : String
  destination : Path
deriving DecidableEq, Inhabited

/-- The `RulePackage` constructor. `cwd` models `process.cwd()` and
`version` models `sonarwhalPackage.version` (the host manifest read at
process start). `none` models a throwing `NewRule` construction. -/
def RulePackage.mk? (data : PackageData) (cwd : Path) (version : String) :
    Option RulePackage :=
  let normalizedName := normalizeStringByDelimiter data.name "-"
  let prefixStr := if data.official then "@sonarwhal/" else "sonarwhal-"
  let rules? :=
    if data.multi then buildRules normalizedName data.rules
    else (NewRule.mk? data.toRuleData none).map fun r => [r]
  rules?.map fun rulesList =>
    { name := data.name
      description := escapeSafeString data.description
      isMulti := data.multi
      normalizedName := normalizedName
      official := data.official
      packageMain := "dist/src/index.js"
      packageName := prefixStr ++ "rule-" ++ normalizedName
      rules := rulesList
      version := version
      destination := cwd ++ ["rule-" ++ normalizedName] }

/- ----------------------------------------------------------------------
New-rule wizard: repeat-collection loop and generation pipeline
---------------------------------------------------------------------- -/

/-- The `askRules` loop of `newRule`: prompt one round, push it onto the
accumulated list unconditionally, and recurse while the round's `again`
confirm is true. The prompt is modelled as consuming a scripted list of
rounds; an exhausted script ends the loop. -/
def askRules : List RuleRound → List RuleRound
  | [] => []
  | r :: rest => r :: (if r.again then askRules rest else [])

/-- One effectful step of the generation pipeline. -/
inductive Action where
  | prompt
  | copy (origin destination : Path)
  | render (template : Path)
  | mkdir (dir : Path)
  | write (file : Path)
deriving DecidableEq, Inhabited

/-- The environment: which action, if any, fails (and with what error). -/
def World := Action → Option String

/-- Run a plan in order; stop at the first failing action. Returns the
successfully performed prefix and the error of the failing action. -/
def execActions (w : World) : List Action → List Action × Option String
  | [] => ([], none)
  | a :: rest =>
    match w a with
    | some e => ([], some e)
    | none => (a :: (execActions w rest).1, (execActions w rest).2)

/-- The files a plan writes, in order. -/
def writesOf (acts : List Action) : List Path :=
  acts.filterMap fun a =>
    match a with
    | Action.write p => some p
    | _ => none

/-- `TEMPLATE_PATH` constant. -/
def TEMPLATE_PATH : String := "./templates/new-rule"

/-- `SHARED_TEMPLATE_PATH` constant. -/
def SHARED_TEMPLATE_PATH : String := "./shared-templates"

/-- The `commonFiles` array of `generateRuleFiles` (destination,
template), including the `.sonarwhalrc` entry pushed for non-official
packages. `dirname` models `__dirname`. -/
def commonFilesFor (dirname destination : Path) (official : Bool) :
    List (Path × Path) :=
  [(destination ++ ["src", "index.ts"], dirname ++ [TEMPLATE_PATH, "index.ts.hbs"]),
   (destination ++ ["README.md"], dirname ++ [TEMPLATE_PATH, "readme.md.hbs"]),
   (destination ++ ["tsconfig.json"], dirname ++ [SHARED_TEMPLATE_PATH, "tsconfig.json.hbs"]),
   (destination ++ ["package.json"], dirname ++ [SHARED_TEMPLATE_PATH, "package.hbs"])] ++
  (if official then []
   else [(destination ++ [".sonarwhalrc"], dirname ++ [SHARED_TEMPLATE_PATH, "config.hbs"])])

/-- The per-common-file body of `generateRuleFiles`:
`compileTemplate`, `mkdirp(path.dirname(dest))`, `writeFileAsync`. -/
def commonFilePlan (entry : Path × Path) : List Action :=
  [Action.render entry.2, Action.mkdir (pathDirname entry.1), Action.write entry.1]

/-- The per-rule body of `generateRuleFiles`: render the rule and test
templates, create both directories, write both files, and — only for
multi-rule packages — render and write the per-rule documentation file. -/
def rulePlanFor (dirname destination : Path) (isMulti : Bool) (rule : NewRule) :
    List Action :=
  let rulePath := (destination ++ ["src"]) ++ [rule.normalizedName ++ ".ts"]
  let testPath := (destination ++ ["tests"]) ++ [rule.normalizedName ++ ".ts"]
  let docPath := (destination ++ ["docs"]) ++ [rule.normalizedName ++ ".md"]
  [Action.render (dirname ++ [TEMPLATE_PATH, "rule.ts.hbs"]),
   Action.render (dirname ++ [TEMPLATE_PATH, "tests.ts.hbs"]),
   Action.mkdir (pathDirname rulePath), Action.mkdir (pathDirname testPath),
   Action.write rulePath, Action.write testPath] ++
  (if isMulti then
    [Action.render (dirname ++ [TEMPLATE_PATH, "rule-doc.hbs"]),
     Action.mkdir (pathDirname docPath), Action.write docPath]
   else [])

/-- The effect plan of `generateRuleFiles destination data`. -/
def generateRuleFilesPlan (dirname destination : Path) (data : RulePackage) :
    List Action :=
  ((commonFilesFor dirname destination data.official).map commonFilePlan).flatten ++
  ((data.rules.map (rulePlanFor dirname destination data.isMulti)).flatten)

/-- The effect plan of the try body of `newRule` after the entities are
built: copy `no-official-files` (community packages only), copy `files`,
then run `generateRuleFiles`. -/
def newRulePlan (dirname : Path) (pkg : RulePackage) : List Action :=
  (if pkg.official then []
   else [Action.copy (dirname ++ ["no-official-files"]) pkg.destination]) ++
  [Action.copy (dirname ++ ["files"]) pkg.destination] ++
  generateRuleFilesPlan dirname pkg.destination pkg

/-- The prompt rounds `newRule` issues: the main question set once, then
one per-rule round for each round `askRules` consumes (multi only). -/
def promptPlan (main : PackageData) (script : List RuleRound) : List Action :=
  Action.prompt :: (if main.multi then (askRules script).map (fun _ => Action.prompt) else [])

/-- `results.rules = rules`: the main answers with the collected rounds
attached (empty when the package is not multi, since `askRules` is only
called for multi packages). -/
def collectedData (main : PackageData) (script : List RuleRound) : PackageData :=
  { main with rules := if main.multi then askRules script else [] }

/-- The `CLIOptions` slice the new-rule wizard reads. -/
structure CLIOptions where
  newRule : Bool
deriving DecidableEq, Inhabited

/-- Outcome of one `newRule` run: effect trace plus returned value. The
result is an `Except` so that "the wizard rethrows" is expressible; the
source's catch-all means the code model only ever produces `Except.ok`. -/
structure NewRuleRun where
  performed : List Action
  result : Except String Bool
deriving Inhabited

/-- The `newRule` driver. Returns `false` immediately when
`actions.newRule` is unset. Otherwise runs the prompts, builds the
`RulePackage` and executes the generation plan inside the source's
`try`; any failure is caught, logged and turned into `false`. -/
def newRule (opts : CLIOptions) (main : PackageData) (script : List RuleRound)
    (cwd dirname : Path) (version : String) (w : World) : NewRuleRun :=
  if opts.newRule then
    match execActions w (promptPlan main script) with
    | (pPerf, some _) => ⟨pPerf, Except.ok false⟩
    | (pPerf, none) =>
      match RulePackage.mk? (collectedData main script) cwd version with
      | none => ⟨pPerf, Except.ok false⟩
      | some pkg =>
        match execActions w (newRulePlan dirname pkg) with
        | (perf, some _) => ⟨pPerf ++ perf, Except.ok false⟩
        | (perf, none) => ⟨pPerf ++ perf, Except.ok true⟩
  else ⟨[], Except.ok false⟩

/- ----------------------------------------------------------------------
Init wizard (`init.ts`, first section)
---------------------------------------------------------------------- -/

/-- An npm package entry, as returned by `getOfficialPackages`. -/
structure NpmPackage where
  name : String
deriving DecidableEq, Inhabited

/-- Remove the first occurrence of `pat` from `s` (JS
`String.prototype.replace` with a string pattern and empty replacement). -/
def replaceFirst (s pat : String) : String :=
  match s.splitOn pat with
  | [] => s
  | [_] => s
  | x :: rest => x ++ String.intercalate pat rest

/-- `getConfigurationName`: `pkgName.split('/')[1].replace('configuration-', '')`.
A name without a `/` makes the source throw (index 1 is `undefined`),
modelled as `none`. -/
def getConfigurationName (pkgName : String) : Option String :=
  ((pkgName.splitOn "/")[1]?).map fun s => replaceFirst s "configuration-"

/-- The `connector` sub-object of the custom configuration literal. -/
structure ConnectorConfig where
  name : String
  waitFor : Nat
deriving DecidableEq, Inhabited

/-- The configuration object `customConfig` builds (the object literal at
the heart of `customConfig`; `rules` is the map rule-name → severity). -/
structure CustomConfig where
  browserslist : List String
  connector : ConnectorConfig
  extendsList : List String
  formatters : List String
  ignoredUrls : List String
  rules : List (String × String)
  rulesTimeout : Nat
deriving DecidableEq, Inhabited

/-- The two shapes of configuration the init wizard can write:
the extend-a-package shape `{ extends: [name] }` or the full custom
shape. -/
inductive InitConfig where
  | extended (extendsList : List String)
  | custom (cfg : CustomConfig)
deriving DecidableEq, Inhabited

/-- The top-level keys `JSON.stringify` emits for each configuration
shape, read off the two object literals in the source
(`{ extends: [...] }` in `extendConfig`; the seven-key literal in
`customConfig`). -/
def InitConfig.jsonKeys : InitConfig → List String
  | InitConfig.extended _ => ["extends"]
  | InitConfig.custom _ =>
    ["browserslist", "connector", "extends", "formatters", "ignoredUrls",
     "rules", "rulesTimeout"]

/-- The `InitUserConfig` result type of both wizard branches. -/
structure InitUserConfig where
  config : InitConfig
  packages : Option (List String)
deriving DecidableEq, Inhabited

/-- The installed+core resource lists `customConfig` assembles
(each field models `getInstalledResources(t).concat(getCoreResources(t))`). -/
structure Resources where
  connectors : List String
  formatters : List String
  parsers : List String
  rules : List String
deriving DecidableEq, Inhabited

/-- The answers of the custom-configuration prompt. `parsers` is only
asked when parser resources exist; it is carried here regardless, since
`customConfig` never reads it. -/
structure CustomAnswers where
  connector : String
  formatter : String
  rules : List String
  parsers : List String
deriving DecidableEq, Inhabited

/-- `extendConfig`. The outer `Option` models a thrown exception
(`getConfigurationName` on a malformed choice); the inner `Option`
models returning `null` when no configuration packages are available. -/
def extendConfig (configPackages : List NpmPackage) (chosenConfiguration : String) :
    Option (Option InitUserConfig) :=
  if 0 < configPackages.length then
    (getConfigurationName chosenConfiguration).map fun n =>
      some { config := InitConfig.extended [n], packages := some [chosenConfiguration] }
  else some none

/-- `customConfig`: `null` (here `none`) when any of the connector,
formatter or rule resource lists is empty; otherwise the seven-key
configuration literal filled in from the answers. `browserslist` models
the awaited `generateBrowserslistConfig()`. -/
def customConfig (res : Resources) (answers : CustomAnswers)
    (browserslist : List String) : Option InitUserConfig :=
  if 0 < res.connectors.length ∧ 0 < res.formatters.length ∧ 0 < res.rules.length then
    some { config := InitConfig.custom
            { browserslist := browserslist
              connector := { name := answers.connector, waitFor := 1000 }
              extendsList := []
              formatters := [answers.formatter]
              ignoredUrls := []
              rules := answers.rules.map fun r => (r, "error")
              rulesTimeout := 120000 }
           packages := none }
  else none

/-- Outcome of one init-wizard run: the `.sonarwhalrc` writes, the
`installPackages` calls, and the returned boolean. -/
structure InitRun where
  writes : List (Path × InitConfig)
  installs : List (List String)
  result : Bool
deriving DecidableEq, Inhabited

/-- The init wizard (the module's default export). Branches on the
`configType` answer, aborts with `false` and no writes when the chosen
branch resolved no configuration, otherwise writes `.sonarwhalrc` and,
for an extend result whose package is not yet installed, installs it.
`none` models an uncaught exception. -/
def initWizard (configType : String) (configPackages : List NpmPackage)
    (chosenConfiguration : String) (res : Resources) (customAnswers : CustomAnswers)
    (browserslist : List String) (installedConfigurations : List String)
    (cwd : Path) : Option InitRun :=
  let result? : Option (Option InitUserConfig) :=
    if configType = "predefined" then extendConfig configPackages chosenConfiguration
    else some (customConfig res customAnswers browserslist)
  result?.bind fun result =>
    match result with
    | none => some { writes := [], installs := [], result := false }
    | some r =>
      let writes := [(cwd ++ [".sonarwhalrc"], r.config)]
      match r.packages with
      | some pkgs =>
        if 0 < pkgs.length then
          (getConfigurationName (pkgs.headD "")).map fun cfgName =>
            if installedConfigurations.contains cfgName then
              { writes := writes, installs := [], result := true }
            else
              { writes := writes, installs := [pkgs], result := true }
        else some { writes := writes, installs := [], result := true }
      | none => some { writes := writes, installs := [], result := true }

/- ----------------------------------------------------------------------
Escaping predicate (for the description-escaping claim)
---------------------------------------------------------------------- -/

/-- Scanner: every backtick is immediately preceded by a backslash;
`prev` is the previous character. -/
def backtickEscapedAux (prev : Char) : List Char → Bool
  | [] => true
  | c :: rest => (c != backtickChar || prev == '\\') && backtickEscapedAux c rest

/-- Every backtick in the character list is immediately preceded by a
backslash (the sentinel previous character is a non-backslash). -/
def backtickEscaped (l : List Char) : Bool := backtickEscapedAux 'a' l

/-- How many of the four use-case flags are set. -/
def UseCase.trueCount (u : UseCase) : Nat :=
  (cond u.dom 1 0) + (cond u.request 1 0) +
    (cond u.thirdPartyService 1 0) + (cond u.jsInjection 1 0)

/- ----------------------------------------------------------------------
Concrete data used by witnesses and counterexamples
---------------------------------------------------------------------- -/

/-- A repeat round with key (name) `A` that asks to continue. -/
def c1RoundA : RuleRound :=
  { name := "A", description := "d", category := none, useCase := "dom",
    elementType := some "div", scope := "any", again := true }

/-- A repeat round with key `B` that asks to continue. -/
def c1RoundB : RuleRound := { c1RoundA with name := "B" }

/-- A repeat round duplicating `c1RoundA`'s answers, ending the loop. -/
def c1RoundA2 : RuleRound := { c1RoundA with again := false }

/-- Main answers of a single-rule official package named `x`. -/
def c2Main : PackageData :=
  { name := "x", description := "d", category := some "security", useCase := "dom",
    elementType := some "div", scope := "any", multi := false, official := true,
    rules := [] }

/-- A world in which writing the generated `README.md` fails. -/
def c2World : World := fun a =>
  if a = Action.write ["c", "rule-x", "README.md"] then some "EACCES" else none

/-- The package `newRule` builds from `c2Main` with cwd `[c]`. -/
def c2Pkg : RulePackage :=
  (RulePackage.mk? (collectedData c2Main []) ["c"] "1.0.0").get!

/-- The prompt actions performed in the `c2World` run. -/
def c2PromptPerformed : List Action := (execActions c2World (promptPlan c2Main [])).1

/-- The pipeline actions performed before the failing write in the
`c2World` run. -/
def c2Performed : List Action := (execActions c2World (newRulePlan ["d"] c2Pkg)).1

/-- The answer set of the official single-rule `request` scenario:
`{multi:false, name:"no-https", description:"desc", category:"security",
useCase:"request", scope:"any", official:true}`. -/
def c3Answers : PackageData :=
  { name := "no-https", description := "desc", category := some "security",
    useCase := "request", elementType := none, scope := "any", multi := false,
    official := true, rules := [] }

/-- A completed rule answer round with use case `request`. -/
def c4Data : RuleData :=
  { name := "no-https", description := "desc", category := some "security",
    useCase := "request", elementType := none, scope := "any" }

/-- The rule built from `c4Data`. -/
def c4Rule : NewRule := (NewRule.mk? c4Data none).get!

/-- A sub-rule round of a multi-rule package. -/
def c6Round : RuleRound :=
  { name := "is valid", description := "checks validity", category := none,
    useCase := "request", elementType := none, scope := "any", again := false }

/-- Main answers of a multi-rule community package. -/
def c6Main : PackageData :=
  { name := "typescript config", description := "pkg", category := none,
    useCase := "", elementType := none, scope := "", multi := true,
    official := false, rules := [c6Round] }

/-- The package built from `c6Main`. -/
def c6Pkg : RulePackage := (RulePackage.mk? c6Main [] "1.0.0").get!

/-- The first (only) rule of `c6Pkg`. -/
def c6Rule : NewRule := c6Pkg.rules.headD default

/-- Main answers of a community single-rule package with a two-word name. -/
def c7Main : PackageData :=
  { name := "My Rule", description := "d", category := some "security",
    useCase := "jsInjection", elementType := none, scope := "site",
    multi := false, official := false, rules := [] }

/-- The package built from `c7Main`. -/
def c7Pkg : RulePackage := (RulePackage.mk? c7Main ["work"] "0.27.0").get!

/-- A rule answer round whose description contains a backtick. -/
def c8Data : RuleData :=
  { name := "x", description := "a`b", category := none,
    useCase := "thirdPartyService", elementType := none, scope := "any" }

/-- The rule built from `c8Data`. -/
def c8Rule : NewRule := (NewRule.mk? c8Data none).get!

/-- Installed resources offering one of everything, parsers included. -/
def c9Res : Resources :=
  { connectors := ["chrome"], formatters := ["summary"],
    parsers := ["javascript"], rules := ["no-https"] }

/-- Custom-configuration answers selecting one parser. -/
def c9Answers : CustomAnswers :=
  { connector := "chrome", formatter := "summary", rules := ["no-https"],
    parsers := ["javascript"] }

/-- The init run produced by the custom branch on `c9Res`/`c9Answers`. -/
def c9Run : InitRun := (initWizard "custom" [] "" c9Res c9Answers [] [] ["cw"]).get!

/-- Main answers used to exercise the disabled `newRule` flag. -/
def c10Main : PackageData :=
  { name := "y", description := "d", category := none, useCase := "dom",
    elementType := none, scope := "any", multi := false, official := false,
    rules := [] }

/- ----------------------------------------------------------------------
Helper lemmas
---------------------------------------------------------------------- -/

/-- Running a plan performs a prefix of it: the plan is the performed
actions followed by the remaining (never attempted) suffix. -/
theorem execActions_self_append (w : World) :
    ∀ acts : List Action,
      acts = (execActions w acts).1 ++ acts.drop (execActions w acts).1.length := by
  intro acts
  induction acts with
  | nil => rfl
  | cons a rest ih =>
    cases hw : w a with
    | some e => simp [execActions, hw]
    | none =>
      simp only [execActions, hw, List.length_cons, List.drop_succ_cons,
        List.cons_append, List.cons.injEq, true_and]
      exact ih

/-- `escapeChars` leaves every backtick immediately preceded by a
backslash, whatever character precedes the escaped text. -/
theorem backtickEscapedAux_escapeChars :
    ∀ (cs : List Char) (prev : Char),
      backtickEscapedAux prev (escapeChars cs) = true := by
  intro cs
  induction cs with
  | nil => intro prev; rfl
  | cons c cs ih =>
    intro prev
    by_cases hc : c = backtickChar
    · subst hc
      simp only [escapeChars, if_pos rfl, backtickEscapedAux]
      have h1 : ('\\' != backtickChar) = true := by decide
      have h2 : ((backtickChar != backtickChar) || ('\\' == '\\')) = true := by decide
      simp [h1, h2, ih]
    · simp only [escapeChars, if_neg hc, backtickEscapedAux]
      have h1 : (c != backtickChar) = true := bne_iff_ne.mpr hc
      simp [h1, ih]

/-- A successful `events.get` means the use case is one of the four keys
of the map literal. -/
theorem eventsMapGet_keys {u : String} {l : List String}
    (h : eventsMapGet u = some l) :
    u = "dom" ∨ u = "request" ∨ u = "thirdPartyService" ∨ u = "jsInjection" := by
  unfold eventsMapGet at h
  split_ifs at h with h1 h2 h3 h4
  · exact Or.inl h1
  · exact Or.inr (Or.inl h2)
  · exact Or.inr (Or.inr (Or.inl h3))
  · exact Or.inr (Or.inr (Or.inr h4))

/-- Every rule of a successfully built multi-package rule list comes from
one of the collected rounds, built with the package's normalized name as
parent. -/
theorem buildRules_mem {nn : String} :
    ∀ {rounds : List RuleRound} {rl : List NewRule},
      buildRules nn rounds = some rl →
      ∀ r ∈ rl, ∃ round, round ∈ rounds ∧
        NewRule.mk? round.toRuleData (some nn) = some r := by
  intro rounds
  induction rounds with
  | nil =>
    intro rl h r hr
    simp only [buildRules, Option.some.injEq] at h
    subst h
    simp at hr
  | cons a as ih =>
    intro rl h r hr
    simp only [buildRules] at h
    rcases Option.bind_eq_some.mp h with ⟨nr, hnr, h2⟩
    rcases Option.map_eq_some'.mp h2 with ⟨rest, hrest, hrl⟩
    subst hrl
    rcases List.mem_cons.mp hr with rfl | hr2
    · exact ⟨a, List.mem_cons_self a as, hnr⟩
    · obtain ⟨round, hmem, hmk⟩ := ih hrest r hr2
      exact ⟨round, List.mem_cons_of_mem a hmem, hmk⟩

/-- The class name a successful `NewRule` construction derives when a
parent name is supplied. -/
theorem newRule_mk_className {round : RuleData} {nn : String} {r : NewRule}
    (h : NewRule.mk? round (some nn) = some r) :
    r.className = toPascalCase nn ++ toPascalCase r.normalizedName ++ "Rule" := by
  simp only [NewRule.mk?] at h
  rcases Option.map_eq_some'.mp h with ⟨ev, _, hr⟩
  subst hr
  rfl

/-- A successful `customConfig` result carries no install-package list
and a custom-shaped configuration object. -/
theorem customConfig_shape {res : Resources} {answers : CustomAnswers}
    {browserslist : List String} {r : InitUserConfig}
    (h : customConfig res answers browserslist = some r) :
    r.packages = none ∧ ∃ c, r.config = InitConfig.custom c := by
  unfold customConfig at h
  split_ifs at h
  obtain rfl := Option.some.inj h
  exact ⟨rfl, _, rfl⟩

/- ----------------------------------------------------------------------
Claim theorems
---------------------------------------------------------------------- -/

/-- C1 (counterexample): `askRules` does not deduplicate. Submitting
rounds with keys `A`, `B`, `A` accumulates all three rounds; the
accumulated answer data contains a duplicate and differs from the
claimed `[A, B]`. -/
theorem askRules_counterexample :
    askRules [c1RoundA, c1RoundB, c1RoundA2] = [c1RoundA, c1RoundB, c1RoundA2] ∧
    c1RoundA2.toRuleData = c1RoundA.toRuleData ∧
    ¬ ((askRules [c1RoundA, c1RoundB, c1RoundA2]).map RuleRound.toRuleData).Nodup ∧
    (askRules [c1RoundA, c1RoundB, c1RoundA2]).map RuleRound.toRuleData ≠
      [c1RoundA.toRuleData, c1RoundB.toRuleData] := by
  refine ⟨rfl, rfl, ?_, ?_⟩ <;> decide

/-- C1 (amended): `askRules` accumulates every submitted round, in
submission order and without any deduplication, up to and including the
first round whose `again` flag is false (all rounds when every round
continues). -/
theorem askRules_accumulates_all_rounds (script : List RuleRound) :
    askRules script = script.take ((script.takeWhile (fun r => r.again)).length + 1) := by
  induction script with
  | nil => rfl
  | cons r rest ih =>
    by_cases h : r.again = true
    · simp [askRules, h, List.takeWhile_cons, ih]
    · simp [askRules, h, List.takeWhile_cons]

/-- C4: every `NewRule` the constructor completes has exactly one of the
four use-case flags set (the constructor throws on any use case outside
the closed set, because the `events` lookup fails first). -/
theorem newRule_useCase_exactlyOne (ruleData : RuleData) (parentName : Option String)
    (r : NewRule) (h : NewRule.mk? ruleData parentName = some r) :
    r.useCase.trueCount = 1 := by
  simp only [NewRule.mk?, getEventsByUseCase] at h
  rcases Option.map_eq_some'.mp h with ⟨ev, hev, hr⟩
  rcases Option.map_eq_some'.mp hev with ⟨l, hl, _⟩
  subst hr
  rcases eventsMapGet_keys hl with h1 | h1 | h1 | h1 <;> simp only [h1] <;> decide

/-- C4 (witness): the rule built from a concrete `request` round has
exactly one use-case flag set. -/
theorem newRule_useCase_exactlyOne_witness :
    NewRule.mk? c4Data none = some c4Rule ∧ c4Rule.useCase.trueCount = 1 :=
  ⟨rfl, newRule_useCase_exactlyOne c4Data none c4Rule rfl⟩

/-- C8: the description of every constructed `NewRule` is the
`escapeSafeString` image of the submitted description, and in it every
backtick is immediately preceded by a backslash. -/
theorem newRule_description_backticks_escaped (ruleData : RuleData)
    (parentName : Option String) (r : NewRule)
    (h : NewRule.mk? ruleData parentName = some r) :
    r.description = escapeSafeString ruleData.description ∧
      backtickEscaped r.description.data = true := by
  simp only [NewRule.mk?] at h
  rcases Option.map_eq_some'.mp h with ⟨ev, _, hr⟩
  subst hr
  refine ⟨rfl, ?_⟩
  show backtickEscapedAux 'a' (escapeChars ruleData.description.data) = true
  exact backtickEscapedAux_escapeChars _ _

/-- C8 (witness): a description containing a backtick comes out of the
constructor with the backtick backslash-escaped. -/
theorem newRule_description_backticks_escaped_witness :
    NewRule.mk? c8Data none = some c8Rule ∧
      (c8Rule.description = escapeSafeString c8Data.description ∧
        backtickEscaped c8Rule.description.data = true) :=
  ⟨rfl, newRule_description_backticks_escaped c8Data none c8Rule rfl⟩

/-- C10: when `actions.newRule` is false the wizard returns false at
once: no prompt, no render, no filesystem action is performed. -/
theorem newRule_noop_when_flag_unset (opts : CLIOptions) (main : PackageData)
    (script : List RuleRound) (cwd dirname : Path) (version : String) (w : World)
    (h : opts.newRule = false) :
    newRule opts main script cwd dirname version w = ⟨[], Except.ok false⟩ := by
  simp [newRule, h]

/-- C10 (witness): a concrete run with the flag unset performs nothing. -/
theorem newRule_noop_when_flag_unset_witness :
    CLIOptions.newRule ⟨false⟩ = false ∧
      newRule ⟨false⟩ c10Main [] [] [] "" (fun _ => none) = ⟨[], Except.ok false⟩ :=
  ⟨rfl, newRule_noop_when_flag_unset ⟨false⟩ c10Main [] [] [] "" (fun _ => none) rfl⟩

/-- C2 (counterexample): in a run whose plan fails (writing `README.md`
errors), `newRule` returns the plain boolean `false`: the failure is
caught inside the wizard, not propagated to the caller. -/
theorem newRule_counterexample_not_rethrown :
    (execActions c2World (newRulePlan ["d"] c2Pkg)).2 = some "EACCES" ∧
    (newRule ⟨true⟩ c2Main [] ["c"] ["d"] "1.0.0" c2World).result = Except.ok false ∧
    (newRule ⟨true⟩ c2Main [] ["c"] ["d"] "1.0.0" c2World).result ≠ Except.error "EACCES" := by
  have hres : (newRule ⟨true⟩ c2Main [] ["c"] ["d"] "1.0.0" c2World).result =
      Except.ok false := rfl
  refine ⟨rfl, hres, ?_⟩
  rw [hres]
  intro h
  exact Except.noConfusion h

/-- C2 (amended): a render/write/copy failure is fatal — the run stops at
the failing action, performing exactly the plan prefix before it, and
nothing is cleaned up (the remaining plan suffix is simply never
attempted) — but the error is caught by the wizard, which logs it and
returns boolean `false` instead of rethrowing to the caller. -/
theorem newRule_failure_fatal_caught (opts : CLIOptions) (main : PackageData)
    (script : List RuleRound) (cwd dirname : Path) (version : String) (w : World)
    (pPerf : List Action) (pkg : RulePackage) (perf : List Action) (e : String)
    (hflag : opts.newRule = true)
    (hprompt : execActions w (promptPlan main script) = (pPerf, none))
    (hpkg : RulePackage.mk? (collectedData main script) cwd version = some pkg)
    (hfail : execActions w (newRulePlan dirname pkg) = (perf, some e)) :
    newRule opts main script cwd dirname version w =
        ⟨pPerf ++ perf, Except.ok false⟩ ∧
      newRulePlan dirname pkg = perf ++ (newRulePlan dirname pkg).drop perf.length := by
  constructor
  · simp [newRule, hflag, hprompt, hpkg, hfail]
  · have h := execActions_self_append w (newRulePlan dirname pkg)
    rw [hfail] at h
    simpa using h

/-- C2 (witness): the concrete failing run of
`newRule_counterexample_not_rethrown`, run through the amended theorem. -/
theorem newRule_failure_fatal_caught_witness :
    CLIOptions.newRule ⟨true⟩ = true ∧
    execActions c2World (promptPlan c2Main []) = (c2PromptPerformed, none) ∧
    RulePackage.mk? (collectedData c2Main []) ["c"] "1.0.0" = some c2Pkg ∧
    execActions c2World (newRulePlan ["d"] c2Pkg) = (c2Performed, some "EACCES") ∧
    (newRule ⟨true⟩ c2Main [] ["c"] ["d"] "1.0.0" c2World =
        ⟨c2PromptPerformed ++ c2Performed, Except.ok false⟩ ∧
      newRulePlan ["d"] c2Pkg =
        c2Performed ++ (newRulePlan ["d"] c2Pkg).drop c2Performed.length) :=
  ⟨rfl, rfl, rfl, rfl,
    newRule_failure_fatal_caught ⟨true⟩ c2Main [] ["c"] ["d"] "1.0.0" c2World
      c2PromptPerformed c2Pkg c2Performed "EACCES" rfl rfl rfl rfl⟩

/-- C3: for the official single-rule `request` answer set, the planner
emits exactly the 4 common templated files (source index, README,
tsconfig, package manifest) plus the one rule's source and test stubs —
no documentation file, no local configuration file — all rooted at
`cwd/rule-no-https`. -/
theorem generateRuleFiles_official_single_request_manifest :
    ∀ (cwd : Path) (version : String) (dirname : Path),
      (RulePackage.mk? c3Answers cwd version).map
          (fun pkg => (pkg.destination,
            writesOf (generateRuleFilesPlan dirname pkg.destination pkg))) =
        some (cwd ++ ["rule-no-https"],
          [(cwd ++ ["rule-no-https"]) ++ ["src", "index.ts"],
           (cwd ++ ["rule-no-https"]) ++ ["README.md"],
           (cwd ++ ["rule-no-https"]) ++ ["tsconfig.json"],
           (cwd ++ ["rule-no-https"]) ++ ["package.json"],
           ((cwd ++ ["rule-no-https"]) ++ ["src"]) ++ ["no-https.ts"],
           ((cwd ++ ["rule-no-https"]) ++ ["tests"]) ++ ["no-https.ts"]]) := by
  intro cwd version dirname
  rfl

/-- C5: when the predefined branch finds no configuration packages, the
init wizard returns `false`, writes nothing and installs nothing. -/
theorem initWizard_no_configurations_aborts :
    ∀ (chosenConfiguration : String) (res : Resources)
      (customAnswers : CustomAnswers)
      (browserslist installedConfigurations : List String) (cwd : Path),
      initWizard "predefined" [] chosenConfiguration res customAnswers
          browserslist installedConfigurations cwd =
        some { writes := [], installs := [], result := false } := by
  intro chosenConfiguration res customAnswers browserslist installedConfigurations cwd
  rfl

/-- C6: in every successfully built multi-rule package, each rule's class
name is the package's pascal-cased normalized name followed by the
rule's own pascal-cased normalized name (followed by the fixed `Rule`
tail). -/
theorem rulePackage_multi_className_prefixed (data : PackageData) (cwd : Path)
    (version : String) (pkg : RulePackage) (hmulti : data.multi = true)
    (h : RulePackage.mk? data cwd version = some pkg) :
    ∀ r ∈ pkg.rules,
      r.className =
        toPascalCase pkg.normalizedName ++ toPascalCase r.normalizedName ++ "Rule" := by
  intro r hr
  simp only [RulePackage.mk?, hmulti, if_true] at h
  rcases Option.map_eq_some'.mp h with ⟨rl, hrl, hpkg⟩
  subst hpkg
  obtain ⟨round, _, hmk⟩ := buildRules_mem hrl r (by simpa using hr)
  exact newRule_mk_className hmk

/-- C6 (witness): the concrete multi-rule package `c6Pkg` and its rule
`c6Rule` exhibit the prefixed class name. -/
theorem rulePackage_multi_className_prefixed_witness :
    c6Main.multi = true ∧
    RulePackage.mk? c6Main [] "1.0.0" = some c6Pkg ∧
    c6Rule ∈ c6Pkg.rules ∧
    c6Rule.className =
      toPascalCase c6Pkg.normalizedName ++ toPascalCase c6Rule.normalizedName ++ "Rule" :=
  ⟨rfl, rfl, by decide,
    rulePackage_multi_className_prefixed c6Main [] "1.0.0" c6Pkg rfl rfl c6Rule (by decide)⟩

/-- C7: every successfully built package's name is the official or
community prefix, then the `rule-` kind segment, then the normalized
display name. -/
theorem rulePackage_packageName_shape (data : PackageData) (cwd : Path)
    (version : String) (pkg : RulePackage)
    (h : RulePackage.mk? data cwd version = some pkg) :
    pkg.packageName =
        (if data.official then "@sonarwhal/" else "sonarwhal-") ++ "rule-" ++
          pkg.normalizedName ∧
      pkg.normalizedName = normalizeStringByDelimiter data.name "-" := by
  simp only [RulePackage.mk?] at h
  rcases Option.map_eq_some'.mp h with ⟨rl, _, hpkg⟩
  subst hpkg
  exact ⟨rfl, rfl⟩

/-- C7 (witness): the concrete community package `c7Pkg` has the
community-prefixed package name. -/
theorem rulePackage_packageName_shape_witness :
    RulePackage.mk? c7Main ["work"] "0.27.0" = some c7Pkg ∧
    (c7Pkg.packageName =
        (if c7Main.official then "@sonarwhal/" else "sonarwhal-") ++ "rule-" ++
          c7Pkg.normalizedName ∧
      c7Pkg.normalizedName = normalizeStringByDelimiter c7Main.name "-") ∧
    c7Pkg.packageName = "sonarwhal-rule-my-rule" :=
  ⟨rfl, rulePackage_packageName_shape c7Main ["work"] "0.27.0" c7Pkg rfl, rfl⟩

/-- C9: in every custom-configuration run — in particular when parser
resources exist and parsers were selected — the configuration written to
`.sonarwhalrc` carries no `parsers` key, and the run's outcome is
entirely independent of the parsers answer. -/
theorem customConfig_run_has_no_parsers_field (configPackages : List NpmPackage)
    (chosenConfiguration : String) (res : Resources) (answers : CustomAnswers)
    (browserslist installedConfigurations : List String) (cwd : Path) (run : InitRun)
    (hpres : 0 < res.parsers.length) (hsel : answers.parsers ≠ [])
    (h : initWizard "custom" configPackages chosenConfiguration res answers
          browserslist installedConfigurations cwd = some run) :
    (∀ w ∈ run.writes, "parsers" ∉ w.2.jsonKeys) ∧
      ∀ parsersAnswer : List String,
        initWizard "custom" configPackages chosenConfiguration res
            { answers with parsers := parsersAnswer } browserslist
            installedConfigurations cwd = some run := by
  constructor
  · cases hcc : customConfig res answers browserslist with
    | none =>
      simp only [initWizard, if_neg (by decide : ¬ ("custom" : String) = "predefined"),
        hcc, Option.some_bind] at h
      obtain rfl := Option.some.inj h
      intro w hw2
      simp at hw2
    | some r =>
      obtain ⟨hpkg, c, hcfg⟩ := customConfig_shape hcc
      simp only [initWizard, if_neg (by decide : ¬ ("custom" : String) = "predefined"),
        hcc, Option.some_bind, hpkg] at h
      obtain rfl := Option.some.inj h
      intro w hw2
      rcases List.mem_singleton.mp hw2 with rfl
      rw [hcfg]
      simp only [InitConfig.jsonKeys]
      decide
  · intro parsersAnswer
    exact h

/-- C9 (witness): a concrete custom run with one parser available and
selected writes a configuration without a `parsers` key, and changing
the parsers answer changes nothing. -/
theorem customConfig_run_has_no_parsers_field_witness :
    0 < c9Res.parsers.length ∧ c9Answers.parsers ≠ [] ∧
    initWizard "custom" [] "" c9Res c9Answers [] [] ["cw"] = some c9Run ∧
    "parsers" ∉ (c9Run.writes.headD (["cw"], InitConfig.extended [])).2.jsonKeys ∧
    initWizard "custom" [] "" c9Res { c9Answers with parsers := ["other"] } [] []
      ["cw"] = some c9Run :=
  ⟨by decide, by decide, rfl,
    (customConfig_run_has_no_parsers_field [] "" c9Res c9Answers [] [] ["cw"] c9Run
        (by decide) (by decide) rfl).1 _ (by decide),
    (customConfig_run_has_no_parsers_field [] "" c9Res c9Answers [] [] ["cw"] c9Run
        (by decide) (by decide) rfl).2 ["other"]⟩

end Sonarwhal
